import Mathlib

/-!
# Verification of the deja-cue quiz core

Shallow embedding of the quiz session core of the `deja-cue` repository:
the track/playlist data model and `getAllTrackIdsFromPlaylist`
(`src/lib/rekordbox-parser.ts`), the `AudioPlayer` playback state machine
(`src/lib/audio-player.ts`), and the `QuizEngine` session operations
(`src/lib/quiz-engine.ts`).  Randomness (`Math.random()`) is modelled by
rational parameters in `[0,1)`; the external file-existence check and the
device load outcome are modelled by boolean oracles; JavaScript `Map` is
modelled by an association list, and the mutable `Set` of used track ids by
a `Finset String`.
-/

namespace DejaCue

/-- `Track` from `rekordbox-parser.ts`: id, display fields, decoded file
location and duration in seconds (0 when unknown). -/
structure Track where
  id : String
  name : String
  artist : String
  album : String
  location : String
  duration : ℚ
  bpm : Option ℚ
  key : Option String
  genre : Option String
deriving DecidableEq

/-- The `type` discriminator of a `PlaylistNode` (`"folder" | "playlist"`). -/
inductive NodeType where
  | folder
  | playlist
deriving DecidableEq

/-- `PlaylistNode` from `rekordbox-parser.ts`: a named node carrying both a
child list (used by folders) and a track-id reference list (used by
playlists), plus the smart-playlist flag. -/
inductive PlaylistNode where
  | mk (name : String) (nodeType : NodeType) (children : List PlaylistNode)
      (trackIds : List String) (isSmartPlaylist : Option Bool)

/-- The `name` field of a playlist node. -/
def PlaylistNode.name : PlaylistNode → String
  | .mk n _ _ _ _ => n

/-- The `type` field of a playlist node. -/
def PlaylistNode.nodeType : PlaylistNode → NodeType
  | .mk _ t _ _ _ => t

/-- The `children` field of a playlist node. -/
def PlaylistNode.children : PlaylistNode → List PlaylistNode
  | .mk _ _ cs _ _ => cs

/-- The `trackIds` field of a playlist node. -/
def PlaylistNode.trackIds : PlaylistNode → List String
  | .mk _ _ _ ts _ => ts

/-- `[...new Set(ids)]` in JavaScript: deduplicate a list keeping the first
occurrence of each element, in insertion order. -/
def jsSetDedup (l : List String) : List String :=
  l.foldl (fun acc a => if a ∈ acc then acc else acc ++ [a]) []

mutual
/-- `getAllTrackIdsFromPlaylist` from `rekordbox-parser.ts`: a playlist node
returns its `trackIds` verbatim; a folder node concatenates the results of
the recursive calls over its children and deduplicates with
`[...new Set(ids)]`. -/
def getAllTrackIdsFromPlaylist : PlaylistNode → List String
  | .mk _ t cs ts _ =>
    match t with
    | .playlist => ts
    | .folder => jsSetDedup (collectChildIds cs)

/-- The `for (const child of node.children) ids.push(...)` loop of
`getAllTrackIdsFromPlaylist`. -/
def collectChildIds : List PlaylistNode → List String
  | [] => []
  | c :: cs => getAllTrackIdsFromPlaylist c ++ collectChildIds cs
end

/- ### Properties of `jsSetDedup` -/

theorem jsSetDedup_loop_nodup (l acc : List String) (h : acc.Nodup) :
    (l.foldl (fun acc a => if a ∈ acc then acc else acc ++ [a]) acc).Nodup := by
  induction l generalizing acc with
  | nil => simpa using h
  | cons a l ih =>
    simp only [List.foldl_cons]
    by_cases ha : a ∈ acc
    · simpa [ha] using ih acc h
    · refine ih _ ?_
      simp [ha, List.nodup_append, h]

theorem jsSetDedup_loop_mem (l acc : List String) (x : String) :
    x ∈ l.foldl (fun acc a => if a ∈ acc then acc else acc ++ [a]) acc ↔
      x ∈ acc ∨ x ∈ l := by
  induction l generalizing acc with
  | nil => simp
  | cons a l ih =>
    simp only [List.foldl_cons]
    by_cases ha : a ∈ acc
    · rw [if_pos ha, ih]
      constructor
      · rintro (hx | hx)
        · exact Or.inl hx
        · exact Or.inr (List.mem_cons_of_mem a hx)
      · rintro (hx | hx)
        · exact Or.inl hx
        · rcases List.mem_cons.1 hx with rfl | hx
          · exact Or.inl ha
          · exact Or.inr hx
    · rw [if_neg ha, ih]
      simp only [List.mem_append, List.mem_singleton, List.mem_cons]
      tauto

theorem jsSetDedup_nodup (l : List String) : (jsSetDedup l).Nodup :=
  jsSetDedup_loop_nodup l [] List.nodup_nil

theorem mem_jsSetDedup (l : List String) (x : String) :
    x ∈ jsSetDedup l ↔ x ∈ l := by
  unfold jsSetDedup
  rw [jsSetDedup_loop_mem]
  simp

theorem collectChildIds_eq_flatMap (cs : List PlaylistNode) :
    collectChildIds cs = cs.flatMap getAllTrackIdsFromPlaylist := by
  induction cs with
  | nil => rfl
  | cons c cs ih => simp [collectChildIds, ih, List.flatMap_cons]

/- ### AudioPlayer (`src/lib/audio-player.ts`) -/

/-- `PlaybackState` from `audio-player.ts`. -/
structure PlaybackState where
  isPlaying : Bool
  currentTime : ℚ
  duration : ℚ
  startOffset : ℚ
  maxPlayTime : ℚ
deriving DecidableEq

/-- The `PlaybackState` set by the `AudioPlayer` constructor and by `stop()`. -/
def initialPlaybackState : PlaybackState :=
  { isPlaying := false, currentTime := 0, duration := 0, startOffset := 0,
    maxPlayTime := 30 }

/-- The state of one `AudioPlayer`: its `PlaybackState` plus whether the
100 ms `setInterval` update loop is currently scheduled
(`updateInterval !== null`). -/
structure AudioPlayerState where
  state : PlaybackState
  loopRunning : Bool
deriving DecidableEq

/-- `handlePlay`: the `"play"` event sets `isPlaying` and starts the update
loop (`startUpdateLoop` is a no-op when the interval already exists, which
leaves `loopRunning` `true` either way). -/
def handlePlay (p : AudioPlayerState) : AudioPlayerState :=
  { p with state := { p.state with isPlaying := true }, loopRunning := true }

/-- `handlePause`: the `"pause"` event clears `isPlaying` and stops the
update loop. -/
def handlePause (p : AudioPlayerState) : AudioPlayerState :=
  { p with state := { p.state with isPlaying := false }, loopRunning := false }

/-- `handleEnded`: identical state effect to `handlePause`. -/
def handleEnded (p : AudioPlayerState) : AudioPlayerState :=
  { p with state := { p.state with isPlaying := false }, loopRunning := false }

/-- `handleError`: identical state effect to `handlePause` (after logging). -/
def handleError (p : AudioPlayerState) : AudioPlayerState :=
  { p with state := { p.state with isPlaying := false }, loopRunning := false }

/-- One firing of the `setInterval` callback in `startUpdateLoop`, given the
device's absolute time `audio.currentTime`.  When the interval is not
scheduled the callback cannot fire, so the state is unchanged.  `pause()`
calls `audio.pause()`, whose `"pause"` event runs `handlePause`; the model
applies that handler synchronously. -/
def tick (p : AudioPlayerState) (deviceTime : ℚ) : AudioPlayerState :=
  if p.loopRunning then
    let elapsed := deviceTime - p.state.startOffset
    let p' := { p with state := { p.state with currentTime := elapsed } }
    if p.state.maxPlayTime ≤ elapsed then handlePause p' else p'
  else p

/-- `stop()`: pauses (the `"pause"` event stops the loop) and resets the
`PlaybackState` to its initial value. -/
def stopPlayer (_p : AudioPlayerState) : AudioPlayerState :=
  { state := initialPlaybackState, loopRunning := false }

/-- `load(filePath, startOffset, maxPlayTime)` up to the metadata await:
calls `stop()` and installs the fresh `PlaybackState` with the given
offsets. -/
def loadStart (startOffset maxPlayTime : ℚ) (_p : AudioPlayerState) :
    AudioPlayerState :=
  { state := { isPlaying := false, currentTime := 0, duration := 0,
               startOffset := startOffset, maxPlayTime := maxPlayTime },
    loopRunning := false }

/-- The tail of a successful `load`: after metadata is ready the duration is
read from the device. -/
def loadFinish (deviceDuration : ℚ) (p : AudioPlayerState) : AudioPlayerState :=
  { p with state := { p.state with duration := deviceDuration } }

/-- The external stimuli that drive one `AudioPlayer`. -/
inductive PlayerEvent where
  | play
  | pause
  | ended
  | fault
  | tickAt (deviceTime : ℚ)
  | loadTo (startOffset maxPlayTime deviceDuration : ℚ)
  | stopCmd

/-- Dispatch one stimulus to the corresponding handler. -/
def playerStep (p : AudioPlayerState) : PlayerEvent → AudioPlayerState
  | .play => handlePlay p
  | .pause => handlePause p
  | .ended => handleEnded p
  | .fault => handleError p
  | .tickAt t => tick p t
  | .loadTo so mp d => loadFinish d (loadStart so mp p)
  | .stopCmd => stopPlayer p

/-- The player state constructed by `new AudioPlayer()`. -/
def initialPlayer : AudioPlayerState :=
  { state := initialPlaybackState, loopRunning := false }

/-- Run the player from its initial state over a list of stimuli. -/
def runPlayer (events : List PlayerEvent) : AudioPlayerState :=
  events.foldl playerStep initialPlayer

/- ### Selection pool (`QuizEngine.getRandomUnusedTrack` / `getRandomTrack`) -/

/-- `Math.floor(r * len)` for a random draw over `len` candidates. -/
def randomIndex (r : ℚ) (len : ℕ) : ℕ := ⌊r * (len : ℚ)⌋₊

/-- The id chosen by `getRandomTrack` (lines 120–126 of `quiz-engine.ts`),
before the `tracks.get` lookup: `null` when `activeTrackIds` is empty,
otherwise `activeTrackIds[Math.floor(Math.random() * length)]`. -/
def getRandomTrackId (activeIds : List String) (r : ℚ) : Option String :=
  if activeIds.length = 0 then none
  else activeIds[randomIndex r activeIds.length]?

/-- The id chosen by `getRandomUnusedTrack` (lines 100–115), before the
`tracks.get` lookup, together with the `usedTrackIds` set after the call
(which the method clears when every active id has been used).  An
out-of-range index models the JavaScript `undefined` element, which the
subsequent `Map.get` turns into `null`. -/
def getRandomUnusedTrackId (activeIds : List String) (used : Finset String)
    (r : ℚ) : Option String × Finset String :=
  let unusedIds := activeIds.filter (fun id => id ∉ used)
  if unusedIds.length = 0 then
    (getRandomTrackId activeIds r, ∅)
  else
    (unusedIds[randomIndex r unusedIds.length]?, used)

/-- The `SelectionPool` of the spec: the active id scope plus the used set. -/
structure SelectionPool where
  activeIds : List String
  usedIds : Finset String
deriving DecidableEq

/-- `draw()` of the spec's SelectionPool: the id-selection part of
`getRandomUnusedTrack`, returning the chosen id (or `none`) and the pool
after the call. -/
def SelectionPool.draw (pool : SelectionPool) (r : ℚ) :
    Option String × SelectionPool :=
  ((getRandomUnusedTrackId pool.activeIds pool.usedIds r).1,
   { pool with
     usedIds := (getRandomUnusedTrackId pool.activeIds pool.usedIds r).2 })

/-- `markConsumed(id)`: `this.usedTrackIds.add(track.id)`. -/
def SelectionPool.markConsumed (pool : SelectionPool) (id : String) :
    SelectionPool :=
  { pool with usedIds := insert id pool.usedIds }

/-- One draw with `markConsumed` applied to its result, as `nextTrack` does
on every attempt that yields a track. -/
def SelectionPool.drawMark (pool : SelectionPool) (r : ℚ) :
    Option String × SelectionPool :=
  match (pool.draw r).1 with
  | none => (none, (pool.draw r).2)
  | some id => (some id, ((pool.draw r).2).markConsumed id)

/-- Repeated `drawMark` over a list of random values, collecting the
outcome of each draw in order. -/
def SelectionPool.runDraws (pool : SelectionPool) :
    List ℚ → List (Option String) × SelectionPool
  | [] => ([], pool)
  | r :: rs =>
    ((pool.drawMark r).1 :: (((pool.drawMark r).2).runDraws rs).1,
     (((pool.drawMark r).2).runDraws rs).2)

/- ### QuizEngine (`src/lib/quiz-engine.ts`) -/

/-- The mutable fields of one `QuizEngine`, together with the state of the
singleton `AudioPlayer` it drives.  The `Map<string, Track>` is modelled as
an association list keyed by id; `usedTrackIds` as a `Finset String`. -/
structure QuizEngineState where
  tracks : List (String × Track)
  activeTrackIds : List String
  currentTrack : Option Track
  isRevealed : Bool
  isLoading : Bool
  error : Option String
  usedTrackIds : Finset String
  playback : AudioPlayerState
deriving DecidableEq

/-- `this.tracks.get(trackId) ?? null`. -/
def tracksGet (tracks : List (String × Track)) (id : String) : Option Track :=
  tracks.lookup id

/-- `getRandomUnusedTrack` in full: choose an id (clearing `usedTrackIds`
on wraparound) and resolve it through the track map. -/
def getRandomUnusedTrack (st : QuizEngineState) (r : ℚ) :
    Option Track × Finset String :=
  let res := getRandomUnusedTrackId st.activeTrackIds st.usedTrackIds r
  (res.1.bind (tracksGet st.tracks), res.2)

/-- `getRandomStartPoint(duration)` with the `Math.random()` value `r`:
`startRange + r * (endRange - startRange)` for the middle-half window. -/
def getRandomStartPoint (duration r : ℚ) : ℚ :=
  let startRange := duration * (1/4)
  let endRange := duration * (3/4)
  let range := endRange - startRange
  startRange + r * range

/-- The external collaborators and random streams consumed by `nextTrack`:
the file-existence check (`exists` with `try/catch`, so a plain `Bool`),
whether `player.load` resolves for a given location, the duration the
device reports after metadata, and the `Math.random()` values used for the
draw and the start offset of attempt `k`. -/
structure Env where
  fileExists : String → Bool
  loadOk : String → Bool
  deviceDuration : String → ℚ
  rands : ℕ → ℚ
  offs : ℕ → ℚ

/-- The state produced when the retry budget is exhausted (the code after
the `while` loop in `nextTrack`). -/
def exhaustedState (st : QuizEngineState) : QuizEngineState :=
  { st with error := some "Could not find a playable track",
            currentTrack := none, isRevealed := false, isLoading := false }

/-- The state produced when the draw returns no track (`if (!track)`). -/
def noTracksState (st : QuizEngineState) (used : Finset String) :
    QuizEngineState :=
  { st with usedTrackIds := used, error := some "No tracks available",
            isLoading := false }

/-- The `while (attempts < maxAttempts)` loop of `nextTrack`.  `fuel` is the
number of attempts still allowed (`maxAttempts - attempts`) and `k` the
index of the current attempt, used to address the random streams. -/
def nextTrackLoop (env : Env) : ℕ → ℕ → QuizEngineState → QuizEngineState
  | 0, _, st => exhaustedState st
  | fuel + 1, k, st =>
    match getRandomUnusedTrack st (env.rands k) with
    | (none, used) => noTracksState st used
    | (some t, used) =>
      let st1 := { st with usedTrackIds := used }
      if env.fileExists t.location then
        let startOffset := getRandomStartPoint t.duration (env.offs k)
        if env.loadOk t.location then
          { st1 with
            currentTrack := some t, isRevealed := false,
            usedTrackIds := insert t.id st1.usedTrackIds,
            isLoading := false,
            playback := handlePlay (loadFinish (env.deviceDuration t.location)
              (loadStart startOffset 30 st1.playback)) }
        else
          nextTrackLoop env fuel (k + 1)
            { st1 with usedTrackIds := insert t.id st1.usedTrackIds,
                       playback := loadStart startOffset 30 st1.playback }
      else
        nextTrackLoop env fuel (k + 1)
          { st1 with usedTrackIds := insert t.id st1.usedTrackIds }

/-- `nextTrack()`: enter the loading state (`isLoading = true`,
`error = null`, previous `currentTrack`/`isRevealed` kept), stop the
player, then run the retry loop with a budget of 10 attempts. -/
def nextTrack (env : Env) (st : QuizEngineState) : QuizEngineState :=
  nextTrackLoop env 10 0
    { st with isLoading := true, error := none,
              playback := stopPlayer st.playback }

/-- `reset()`: stop the player, clear `currentTrack`, `isRevealed`,
`isLoading`, `error` and `usedTrackIds`. -/
def reset (st : QuizEngineState) : QuizEngineState :=
  { st with currentTrack := none, isRevealed := false, isLoading := false,
            error := none, usedTrackIds := ∅,
            playback := stopPlayer st.playback }

/-- `setPlaylistFilter(playlist)`: replace `activeTrackIds` by all track
keys (`playlist === null`) or by `getAllTrackIdsFromPlaylist(playlist)`,
then `reset()`. -/
def setPlaylistFilter (p : Option PlaylistNode) (st : QuizEngineState) :
    QuizEngineState :=
  let active := match p with
    | none => st.tracks.map Prod.fst
    | some node => getAllTrackIdsFromPlaylist node
  reset { st with activeTrackIds := active }

/-- `reveal()`: set `isRevealed` when a current track exists, otherwise do
nothing. -/
def reveal (st : QuizEngineState) : QuizEngineState :=
  match st.currentTrack with
  | some _ => { st with isRevealed := true }
  | none => st

/- ### Concrete states used to exercise the theorems -/

/-- A concrete track with id `"A"`. -/
def trackA : Track :=
  { id := "A", name := "Alpha", artist := "Ann", album := "One",
    location := "/music/a.mp3", duration := 200, bpm := none, key := none,
    genre := none }

/-- A concrete track with id `"B"`. -/
def trackB : Track :=
  { id := "B", name := "Beta", artist := "Bob", album := "Two",
    location := "/music/b.mp3", duration := 180, bpm := none, key := none,
    genre := none }

/-- A concrete track with id `"C"`. -/
def trackC : Track :=
  { id := "C", name := "Gamma", artist := "Cam", album := "Three",
    location := "/music/c.mp3", duration := 240, bpm := none, key := none,
    genre := none }

/-- A session over the three-track library, fresh. -/
def sampleState3 : QuizEngineState :=
  { tracks := [("A", trackA), ("B", trackB), ("C", trackC)],
    activeTrackIds := ["A", "B", "C"],
    currentTrack := none, isRevealed := false, isLoading := false,
    error := none, usedTrackIds := ∅, playback := initialPlayer }

/-- An environment in which every track file is missing. -/
def envAllMissing : Env :=
  { fileExists := fun _ => false, loadOk := fun _ => false,
    deviceDuration := fun _ => 0, rands := fun _ => 0, offs := fun _ => 0 }

/-- The three-track session with track `A` currently loaded. -/
def sampleLoadedState : QuizEngineState :=
  { sampleState3 with currentTrack := some trackA }

/-- The three-track session with the error flag set and no track loaded. -/
def sampleErrorState : QuizEngineState :=
  { sampleState3 with error := some "Could not find a playable track" }

/-- A session whose active scope contains the id `"B"` with no entry in the
track map (a dangling playlist reference), next to the playable `"A"`. -/
def danglingState : QuizEngineState :=
  { tracks := [("A", trackA)], activeTrackIds := ["A", "B"],
    currentTrack := none, isRevealed := false, isLoading := false,
    error := none, usedTrackIds := {"A"}, playback := initialPlayer }

/-- A player mid-excerpt: playing with the update loop scheduled,
`startOffset = 40`, `maxPlayTime = 30`. -/
def samplePlayer : AudioPlayerState :=
  { state := { isPlaying := true, currentTime := 0, duration := 100,
               startOffset := 40, maxPlayTime := 30 },
    loopRunning := true }

/- ## Theorems -/

/-- **C5.** `getAllTrackIdsFromPlaylist` applied to a Playlist node returns
its track-id references verbatim; applied to a Folder node it returns the
deduplicated union of the recursive results over all children, so no id
appears more than once in a folder's result. -/
theorem getAllTrackIds_spec :
    (∀ n cs ts s,
      getAllTrackIdsFromPlaylist (PlaylistNode.mk n .playlist cs ts s) = ts) ∧
    (∀ n cs ts s,
      (getAllTrackIdsFromPlaylist (PlaylistNode.mk n .folder cs ts s)).Nodup ∧
      ∀ a, a ∈ getAllTrackIdsFromPlaylist (PlaylistNode.mk n .folder cs ts s) ↔
        ∃ c ∈ cs, a ∈ getAllTrackIdsFromPlaylist c) := by
  refine ⟨fun n cs ts s => rfl, fun n cs ts s => ⟨?_, fun a => ?_⟩⟩
  · show (jsSetDedup (collectChildIds cs)).Nodup
    exact jsSetDedup_nodup _
  · show a ∈ jsSetDedup (collectChildIds cs) ↔ _
    rw [mem_jsSetDedup, collectChildIds_eq_flatMap, List.mem_flatMap]

/-- **C4.** `setPlaylistFilter` replaces `activeTrackIds` (all ingested
track ids for `null`, the flattened playlist for a node) and then performs
the full reset: playback stopped, `currentTrack`, `isRevealed`,
`isLoading`, `error` and `usedTrackIds` all cleared — unconditionally, in
particular also when the same playlist is already selected. -/
theorem setPlaylistFilter_spec (p : Option PlaylistNode) (st : QuizEngineState) :
    (setPlaylistFilter p st).activeTrackIds =
      (match p with
       | none => st.tracks.map Prod.fst
       | some node => getAllTrackIdsFromPlaylist node) ∧
    (setPlaylistFilter p st).currentTrack = none ∧
    (setPlaylistFilter p st).isRevealed = false ∧
    (setPlaylistFilter p st).isLoading = false ∧
    (setPlaylistFilter p st).error = none ∧
    (setPlaylistFilter p st).usedTrackIds = ∅ ∧
    (setPlaylistFilter p st).playback = stopPlayer st.playback := by
  cases p <;> simp [setPlaylistFilter, reset, stopPlayer]

/-- **C8.** `reset` is idempotent — applying it twice equals applying it
once — and a single `reset` clears `currentTrack`, `isRevealed`,
`isLoading`, `error`, and the pool's `usedTrackIds`. -/
theorem reset_spec (st : QuizEngineState) :
    reset (reset st) = reset st ∧
    (reset st).currentTrack = none ∧
    (reset st).isRevealed = false ∧
    (reset st).isLoading = false ∧
    (reset st).error = none ∧
    (reset st).usedTrackIds = ∅ := by
  exact ⟨rfl, rfl, rfl, rfl, rfl, rfl⟩

/-- **C9.** `reveal` is a no-op when no current track exists; with a current
track it sets `isRevealed` and leaves `currentTrack`, `isLoading`, `error`,
`usedTrackIds`, `activeTrackIds`, the track map and the playback state
unchanged. -/
theorem reveal_spec (st : QuizEngineState) :
    (st.currentTrack = none → reveal st = st) ∧
    (∀ t, st.currentTrack = some t →
      (reveal st).isRevealed = true ∧
      (reveal st).currentTrack = st.currentTrack ∧
      (reveal st).isLoading = st.isLoading ∧
      (reveal st).error = st.error ∧
      (reveal st).usedTrackIds = st.usedTrackIds ∧
      (reveal st).activeTrackIds = st.activeTrackIds ∧
      (reveal st).tracks = st.tracks ∧
      (reveal st).playback = st.playback) := by
  constructor
  · intro h
    simp [reveal, h]
  · intro t h
    simp [reveal, h]

/-- Witness for **C9** at a concrete loaded session. -/
theorem reveal_spec_witness :
    sampleLoadedState.currentTrack = some trackA ∧
    (reveal sampleLoadedState).isRevealed = true ∧
    (reveal sampleLoadedState).playback = sampleLoadedState.playback :=
  ⟨rfl, ((reveal_spec sampleLoadedState).2 trackA rfl).1,
    ((reveal_spec sampleLoadedState).2 trackA rfl).2.2.2.2.2.2.2⟩

/-- **C6 counterexample.** At `duration = 0` the computed offset is `0`,
but the half-open window `[0.25·0, 0.75·0)` is empty, so the offset does
not lie in it — the claim's window membership fails for `d = 0`. -/
theorem getRandomStartPoint_counterexample :
    getRandomStartPoint 0 0 = 0 ∧
    ¬ ((0 : ℚ) * (1/4) ≤ getRandomStartPoint 0 0 ∧
        getRandomStartPoint 0 0 < (0 : ℚ) * (3/4)) := by
  have h : getRandomStartPoint 0 0 = 0 := by norm_num [getRandomStartPoint]
  refine ⟨h, ?_⟩
  rw [h]
  norm_num

/-- **C6 amended.** For `d ≥ 0` and `r ∈ [0,1)` the offset equals
`d*0.25 + r*(d*0.75 − d*0.25)`; it lies in `[0.25·d, 0.75·d)` whenever
`d > 0` (in particular in `[25,75)` for `d = 100`), and equals `0` when
`d = 0`. -/
theorem getRandomStartPoint_spec (d r : ℚ) (hd : 0 ≤ d) (h0 : 0 ≤ r)
    (h1 : r < 1) :
    getRandomStartPoint d r = d * (1/4) + r * (d * (3/4) - d * (1/4)) ∧
    (0 < d → d * (1/4) ≤ getRandomStartPoint d r ∧
      getRandomStartPoint d r < d * (3/4)) ∧
    (d = 0 → getRandomStartPoint d r = 0) ∧
    (d = 100 → 25 ≤ getRandomStartPoint d r ∧ getRandomStartPoint d r < 75) := by
  have hEq : getRandomStartPoint d r =
      d * (1/4) + r * (d * (3/4) - d * (1/4)) := rfl
  refine ⟨hEq, ?_, ?_, ?_⟩
  · intro hpos
    have hw : (0 : ℚ) ≤ d * (3/4) - d * (1/4) := by linarith
    have hlo : 0 ≤ r * (d * (3/4) - d * (1/4)) := mul_nonneg h0 hw
    have hhi : r * (d * (3/4) - d * (1/4)) < 1 * (d * (3/4) - d * (1/4)) :=
      mul_lt_mul_of_pos_right h1 (by linarith)
    rw [hEq]
    constructor <;> linarith
  · intro hzero
    rw [hEq, hzero]
    ring
  · intro h100
    have hw : (0 : ℚ) ≤ d * (3/4) - d * (1/4) := by linarith
    have hlo : 0 ≤ r * (d * (3/4) - d * (1/4)) := mul_nonneg h0 hw
    have hhi : r * (d * (3/4) - d * (1/4)) < 1 * (d * (3/4) - d * (1/4)) :=
      mul_lt_mul_of_pos_right h1 (by rw [h100]; norm_num)
    rw [hEq, h100] at *
    constructor <;> linarith

/-- Witness for **C6 amended** at `d = 100`, `r = 1/2`. -/
theorem getRandomStartPoint_spec_witness :
    (0 : ℚ) ≤ 100 ∧ (0 : ℚ) ≤ 1/2 ∧ (1/2 : ℚ) < 1 ∧
    (25 ≤ getRandomStartPoint 100 (1/2) ∧
      getRandomStartPoint 100 (1/2) < 75) :=
  ⟨by norm_num, by norm_num, by norm_num,
    (getRandomStartPoint_spec 100 (1/2) (by norm_num) (by norm_num)
      (by norm_num)).2.2.2 rfl⟩

/-- **C3 counterexample.** A session with the error flag set and no track
loaded: `reset` clears the error, so the error is not cleared only by a
successful Loading→Playing transition. -/
theorem errorFlag_counterexample :
    sampleErrorState.error = some "Could not find a playable track" ∧
    sampleErrorState.currentTrack = none ∧
    (reset sampleErrorState).error = none := ⟨rfl, rfl, rfl⟩

/-- Every `nextTrackLoop` result carries either the error of the state it
started from or one of the two messages the loop itself sets. -/
theorem nextTrackLoop_error_range (env : Env) :
    ∀ fuel k st,
      (nextTrackLoop env fuel k st).error = st.error ∨
      (nextTrackLoop env fuel k st).error = some "No tracks available" ∨
      (nextTrackLoop env fuel k st).error =
        some "Could not find a playable track" := by
  intro fuel
  induction fuel with
  | zero =>
    intro k st
    exact Or.inr (Or.inr rfl)
  | succ n ih =>
    intro k st
    rw [nextTrackLoop]
    split
    · exact Or.inr (Or.inl rfl)
    · split
      · split
        · exact Or.inl rfl
        · exact ih (k + 1) _
      · exact ih (k + 1) _

/-- **C3 amended.** The error flag is set only inside `nextTrack` (to one
of its two messages, from the Loading state it entered); `reveal` leaves
it unchanged; and besides the successful load path — which keeps the
cleared error — the flag is also cleared by `reset`, by
`setPlaylistFilter`, and by the entry into Loading at the start of
`nextTrack`. -/
theorem errorFlag_spec :
    (∀ st, (reset st).error = none) ∧
    (∀ p st, (setPlaylistFilter p st).error = none) ∧
    (∀ st, (reveal st).error = st.error) ∧
    (∀ env st, nextTrack env st =
      nextTrackLoop env 10 0
        { st with isLoading := true, error := none,
                  playback := stopPlayer st.playback }) ∧
    (∀ env st,
      (nextTrack env st).error = none ∨
      (nextTrack env st).error = some "No tracks available" ∨
      (nextTrack env st).error = some "Could not find a playable track") := by
  refine ⟨fun st => rfl, ?_, ?_, fun env st => rfl, ?_⟩
  · intro p st
    cases p <;> rfl
  · intro st
    cases h : st.currentTrack <;> simp [reveal, h]
  · intro env st
    exact nextTrackLoop_error_range env 10 0 _

/-- An id handed out by `getRandomTrackId` is a member of the active set. -/
theorem getRandomTrackId_some_mem {active : List String} {r : ℚ} {id : String}
    (h : getRandomTrackId active r = some id) : id ∈ active := by
  unfold getRandomTrackId at h
  split at h
  · exact absurd h (by simp)
  · exact List.getElem?_mem h

/-- An id handed out by `getRandomUnusedTrackId` is a member of the active
set. -/
theorem getRandomUnusedTrackId_some_mem {active : List String}
    {used : Finset String} {r : ℚ} {id : String} {used' : Finset String}
    (h : getRandomUnusedTrackId active used r = (some id, used')) :
    id ∈ active := by
  simp only [getRandomUnusedTrackId] at h
  split at h
  · exact getRandomTrackId_some_mem (congrArg Prod.fst h)
  · have hmem : id ∈ active.filter (fun id => id ∉ used) :=
      List.getElem?_mem (congrArg Prod.fst h)
    exact (List.mem_filter.1 hmem).1

/-- An id handed out by `getRandomUnusedTrackId` is not in the used set the
call leaves behind (the set is either untouched — and the id was drawn from
its complement — or was just cleared by the wraparound). -/
theorem getRandomUnusedTrackId_some_not_used {active : List String}
    {used : Finset String} {r : ℚ} {id : String} {used' : Finset String}
    (h : getRandomUnusedTrackId active used r = (some id, used')) :
    id ∉ used' := by
  simp only [getRandomUnusedTrackId] at h
  split at h
  · have : used' = ∅ := (congrArg Prod.snd h).symm
    simp [this]
  · have hused : used' = used := (congrArg Prod.snd h).symm
    have hmem : id ∈ active.filter (fun id => id ∉ used) :=
      List.getElem?_mem (congrArg Prod.fst h)
    have := (List.mem_filter.1 hmem).2
    simp only [decide_eq_true_eq] at this
    rw [hused]
    exact this

/-- When the unused filter is the non-empty list `l`, the draw indexes into
`l` and leaves the used set untouched. -/
theorem getRandomUnusedTrackId_eq_of_filter {active : List String}
    {used : Finset String} (r : ℚ) {l : List String}
    (hf : active.filter (fun id => id ∉ used) = l) (hne : l ≠ []) :
    getRandomUnusedTrackId active used r =
      (l[randomIndex r l.length]?, used) := by
  simp only [getRandomUnusedTrackId, hf]
  rw [if_neg]
  simpa [List.length_eq_zero] using hne

/-- **C10.** If the id selected by the draw has no entry in the track map,
`getRandomUnusedTrack` yields no track and `nextTrackLoop` immediately ends
with `error = "No tracks available"` and `isLoading = false`: the selected
id is in `activeTrackIds`, is not marked consumed, the previous
`currentTrack` is kept, and no further attempts of the retry budget are
made (the result is the same for every remaining budget). -/
theorem danglingId_spec (env : Env) (fuel k : ℕ) (st : QuizEngineState)
    (id : String) (used' : Finset String)
    (hdraw : getRandomUnusedTrackId st.activeTrackIds st.usedTrackIds
      (env.rands k) = (some id, used'))
    (hnone : tracksGet st.tracks id = none) :
    id ∈ st.activeTrackIds ∧
    id ∉ used' ∧
    nextTrackLoop env (fuel + 1) k st = noTracksState st used' ∧
    (noTracksState st used').error = some "No tracks available" ∧
    (noTracksState st used').isLoading = false ∧
    (noTracksState st used').currentTrack = st.currentTrack ∧
    (noTracksState st used').usedTrackIds = used' := by
  have hg : getRandomUnusedTrack st (env.rands k) = (none, used') := by
    unfold getRandomUnusedTrack
    rw [hdraw]
    simp [hnone]
  refine ⟨getRandomUnusedTrackId_some_mem hdraw,
    getRandomUnusedTrackId_some_not_used hdraw, ?_, rfl, rfl, rfl, rfl⟩
  rw [nextTrackLoop, hg]

/-- Witness for **C10**: in `danglingState` the draw picks the dangling id
`"B"` next to the playable `"A"`, and the call ends at once. -/
theorem danglingId_spec_witness :
    getRandomUnusedTrackId danglingState.activeTrackIds
        danglingState.usedTrackIds (envAllMissing.rands 0) =
      (some "B", {"A"}) ∧
    tracksGet danglingState.tracks "B" = none ∧
    nextTrackLoop envAllMissing 10 0 danglingState =
      noTracksState danglingState {"A"} ∧
    "B" ∉ ({"A"} : Finset String) := by
  have hf : danglingState.activeTrackIds.filter
      (fun id => id ∉ danglingState.usedTrackIds) = ["B"] := by decide
  have hidx : randomIndex (envAllMissing.rands 0) 1 = 0 := by
    simp [randomIndex, envAllMissing]
  have h1 : getRandomUnusedTrackId danglingState.activeTrackIds
      danglingState.usedTrackIds (envAllMissing.rands 0) =
      (some "B", {"A"}) := by
    rw [getRandomUnusedTrackId_eq_of_filter (envAllMissing.rands 0) hf
      (by simp)]
    simp [hidx]
    rfl
  have h2 : tracksGet danglingState.tracks "B" = none := by decide
  have hmain := danglingId_spec envAllMissing 9 0 danglingState "B" {"A"} h1 h2
  exact ⟨h1, h2, hmain.2.2.1, hmain.2.1⟩

/-- `Math.floor(r * len)` is a valid index when `r ∈ [0,1)` and the list is
non-empty. -/
theorem randomIndex_lt (r : ℚ) (len : ℕ) (h0 : 0 ≤ r) (h1 : r < 1)
    (hlen : 0 < len) : randomIndex r len < len := by
  rw [randomIndex, Nat.floor_lt (by positivity)]
  calc r * (len : ℚ) < 1 * (len : ℚ) :=
        mul_lt_mul_of_pos_right h1 (by exact_mod_cast hlen)
    _ = (len : ℚ) := one_mul _

/-- `getRandomTrack`'s id choice succeeds on a non-empty active set. -/
theorem getRandomTrackId_isSome (active : List String) (r : ℚ) (h0 : 0 ≤ r)
    (h1 : r < 1) (hne : active ≠ []) :
    ∃ id, getRandomTrackId active r = some id ∧ id ∈ active := by
  unfold getRandomTrackId
  rw [if_neg (by simpa [List.length_eq_zero] using hne)]
  have hlt : randomIndex r active.length < active.length :=
    randomIndex_lt r active.length h0 h1 (List.length_pos.2 hne)
  exact ⟨_, List.getElem?_eq_getElem hlt, List.getElem_mem hlt⟩

/-- `getRandomUnusedTrack`'s id choice succeeds on a non-empty active set. -/
theorem getRandomUnusedTrackId_isSome (active : List String)
    (used : Finset String) (r : ℚ) (h0 : 0 ≤ r) (h1 : r < 1)
    (hne : active ≠ []) :
    ∃ id used', getRandomUnusedTrackId active used r = (some id, used') ∧
      id ∈ active := by
  simp only [getRandomUnusedTrackId]
  split
  · obtain ⟨id, hid, hmem⟩ := getRandomTrackId_isSome active r h0 h1 hne
    exact ⟨id, ∅, by rw [hid], hmem⟩
  · rename_i hlen
    set l := active.filter (fun id => id ∉ used) with hl
    have hlne : l ≠ [] := by
      intro hcon
      exact hlen (by simp [hcon])
    have hlt : randomIndex r l.length < l.length :=
      randomIndex_lt r l.length h0 h1 (List.length_pos.2 hlne)
    refine ⟨l[randomIndex r l.length], used, ?_, ?_⟩
    · rw [List.getElem?_eq_getElem hlt]
    · exact (List.mem_filter.1 (List.getElem_mem hlt)).1

/-- When in addition every active id resolves through the track map,
`getRandomUnusedTrack` yields a track. -/
theorem getRandomUnusedTrack_isSome (st : QuizEngineState) (r : ℚ)
    (h0 : 0 ≤ r) (h1 : r < 1) (hne : st.activeTrackIds ≠ [])
    (hmap : ∀ id ∈ st.activeTrackIds, (tracksGet st.tracks id).isSome = true) :
    ∃ t used', getRandomUnusedTrack st r = (some t, used') := by
  obtain ⟨id, used', heq, hmem⟩ :=
    getRandomUnusedTrackId_isSome st.activeTrackIds st.usedTrackIds r h0 h1 hne
  obtain ⟨t, ht⟩ := Option.isSome_iff_exists.1 (hmap id hmem)
  refine ⟨t, used', ?_⟩
  unfold getRandomUnusedTrack
  rw [heq]
  simp [ht]

/-- Unfolding of one loop iteration when the draw yields no track. -/
theorem nextTrackLoop_succ_none (env : Env) (fuel k : ℕ)
    (st : QuizEngineState) (used : Finset String)
    (h : getRandomUnusedTrack st (env.rands k) = (none, used)) :
    nextTrackLoop env (fuel + 1) k st = noTracksState st used := by
  rw [nextTrackLoop, h]

/-- Unfolding of one loop iteration when the draw yields a track. -/
theorem nextTrackLoop_succ_some (env : Env) (fuel k : ℕ)
    (st : QuizEngineState) (t : Track) (used : Finset String)
    (h : getRandomUnusedTrack st (env.rands k) = (some t, used)) :
    nextTrackLoop env (fuel + 1) k st =
      if env.fileExists t.location then
        (if env.loadOk t.location then
          { st with currentTrack := some t, isRevealed := false,
                    usedTrackIds := insert t.id used, isLoading := false,
                    playback := handlePlay (loadFinish
                      (env.deviceDuration t.location)
                      (loadStart (getRandomStartPoint t.duration (env.offs k))
                        30 st.playback)) }
        else
          nextTrackLoop env fuel (k + 1)
            { st with usedTrackIds := insert t.id used,
                      playback := loadStart
                        (getRandomStartPoint t.duration (env.offs k)) 30
                        st.playback })
      else
        nextTrackLoop env fuel (k + 1)
          { st with usedTrackIds := insert t.id used } := by
  rw [nextTrackLoop, h]

/-- When every candidate fails its file check or its device load, the retry
loop runs its budget down to zero and ends in the exhausted state. -/
theorem nextTrackLoop_exhausts (env : Env)
    (hfail : ∀ s, env.fileExists s = false ∨ env.loadOk s = false)
    (hrand : ∀ k, 0 ≤ env.rands k ∧ env.rands k < 1) :
    ∀ fuel k st, st.activeTrackIds ≠ [] →
      (∀ id ∈ st.activeTrackIds, (tracksGet st.tracks id).isSome = true) →
      (nextTrackLoop env fuel k st).error =
          some "Could not find a playable track" ∧
        (nextTrackLoop env fuel k st).currentTrack = none ∧
        (nextTrackLoop env fuel k st).isRevealed = false ∧
        (nextTrackLoop env fuel k st).isLoading = false := by
  intro fuel
  induction fuel with
  | zero =>
    intro k st _ _
    exact ⟨rfl, rfl, rfl, rfl⟩
  | succ n ih =>
    intro k st hne hmap
    obtain ⟨t, used', heq⟩ := getRandomUnusedTrack_isSome st (env.rands k)
      (hrand k).1 (hrand k).2 hne hmap
    rw [nextTrackLoop_succ_some env n k st t used' heq]
    rcases hfail t.location with hf | hl
    · rw [if_neg (by simp [hf])]
      exact ih (k + 1) _ hne hmap
    · by_cases hf2 : env.fileExists t.location
      · rw [if_pos hf2, if_neg (by simp [hl])]
        exact ih (k + 1) _ hne hmap
      · rw [if_neg hf2]
        exact ih (k + 1) _ hne hmap

/-- **C2.** When every attempted candidate fails (file check false or
device load rejecting), `nextTrack` exhausts its 10-attempt budget and ends
with `error = "Could not find a playable track"`, no current track, not
revealed, not loading; and every failed candidate's id is added to
`usedTrackIds` before the next attempt, so it is not retried within the
same cycle. -/
theorem nextTrack_exhaustion_spec :
    (∀ env st,
      (∀ s, env.fileExists s = false ∨ env.loadOk s = false) →
      st.activeTrackIds ≠ [] →
      (∀ id ∈ st.activeTrackIds, (tracksGet st.tracks id).isSome = true) →
      (∀ k, 0 ≤ env.rands k ∧ env.rands k < 1) →
      (nextTrack env st).error = some "Could not find a playable track" ∧
      (nextTrack env st).currentTrack = none ∧
      (nextTrack env st).isRevealed = false ∧
      (nextTrack env st).isLoading = false) ∧
    (∀ env fuel k st t used',
      getRandomUnusedTrack st (env.rands k) = (some t, used') →
      env.fileExists t.location = false ∨ env.loadOk t.location = false →
      ∃ st', nextTrackLoop env (fuel + 1) k st =
          nextTrackLoop env fuel (k + 1) st' ∧
        t.id ∈ st'.usedTrackIds) := by
  constructor
  · intro env st hfail hne hmap hrand
    exact nextTrackLoop_exhausts env hfail hrand 10 0 _ hne hmap
  · intro env fuel k st t used' heq hfl
    rw [nextTrackLoop_succ_some env fuel k st t used' heq]
    by_cases hf2 : env.fileExists t.location
    · have hl : env.loadOk t.location = false := by
        rcases hfl with hf | hl
        · rw [hf2] at hf
          exact absurd hf (by simp)
        · exact hl
      rw [if_pos hf2, if_neg (by simp [hl])]
      exact ⟨_, rfl, Finset.mem_insert_self _ _⟩
    · rw [if_neg hf2]
      exact ⟨_, rfl, Finset.mem_insert_self _ _⟩

/-- Witness for **C2**: the three-track library with every file missing. -/
theorem nextTrack_exhaustion_spec_witness :
    sampleState3.activeTrackIds ≠ [] ∧
    (nextTrack envAllMissing sampleState3).error =
      some "Could not find a playable track" ∧
    (nextTrack envAllMissing sampleState3).currentTrack = none := by
  have hmain := nextTrack_exhaustion_spec.1 envAllMissing sampleState3
    (fun s => Or.inl rfl) (by simp [sampleState3]) (by decide)
    (fun k => by constructor <;> norm_num [envAllMissing])
  exact ⟨by simp [sampleState3], hmain.1, hmain.2.1⟩

/-- Every stimulus keeps the update loop scheduled exactly while the
player believes it is playing. -/
theorem playerStep_loop_inv (p : AudioPlayerState) (e : PlayerEvent)
    (h : p.loopRunning = p.state.isPlaying) :
    (playerStep p e).loopRunning = (playerStep p e).state.isPlaying := by
  cases e with
  | play => rfl
  | pause => rfl
  | ended => rfl
  | fault => rfl
  | tickAt t =>
    simp only [playerStep, tick]
    split
    · split
      · rfl
      · exact h
    · exact h
  | loadTo so mp d => rfl
  | stopCmd => rfl

/-- The loop/`isPlaying` agreement is preserved along any event trace. -/
theorem playerFold_loop_inv :
    ∀ (es : List PlayerEvent) (p : AudioPlayerState),
      p.loopRunning = p.state.isPlaying →
      (es.foldl playerStep p).loopRunning =
        (es.foldl playerStep p).state.isPlaying := by
  intro es
  induction es with
  | nil => exact fun p h => h
  | cons e es ih => exact fun p h => ih _ (playerStep_loop_inv p e h)

/-- **C7.** A sampling tick recomputes `currentTime` as the device's
absolute time minus `startOffset`; when that elapsed time reaches
`maxPlayTime` the tick issues a pause, after which `isPlaying` is false and
the loop is stopped; with the loop stopped, ticks are no-ops until the next
play; and along every event trace from the initial player the loop is
scheduled exactly while playing. -/
theorem tick_spec :
    (∀ p t, p.loopRunning = true →
      (tick p t).state.currentTime = t - p.state.startOffset) ∧
    (∀ p t, p.loopRunning = true →
      p.state.maxPlayTime ≤ t - p.state.startOffset →
      (tick p t).state.isPlaying = false ∧ (tick p t).loopRunning = false) ∧
    (∀ p t, p.loopRunning = false → tick p t = p) ∧
    (∀ events, (runPlayer events).loopRunning =
      (runPlayer events).state.isPlaying) := by
  refine ⟨?_, ?_, ?_, ?_⟩
  · intro p t h
    simp only [tick]
    rw [if_pos h]
    split
    · rfl
    · rfl
  · intro p t h hmax
    simp only [tick]
    rw [if_pos h, if_pos hmax]
    exact ⟨rfl, rfl⟩
  · intro p t h
    simp only [tick]
    rw [if_neg (by simp [h])]
  · exact fun events => playerFold_loop_inv events initialPlayer rfl

/-- Witness for **C7**: a playing player with `startOffset = 40`,
`maxPlayTime = 30`, ticked at device time 75. -/
theorem tick_spec_witness :
    samplePlayer.loopRunning = true ∧
    samplePlayer.state.maxPlayTime ≤ 75 - samplePlayer.state.startOffset ∧
    (tick samplePlayer 75).state.isPlaying = false ∧
    (tick samplePlayer 75).loopRunning = false := by
  have h := tick_spec.2.1 samplePlayer 75 rfl (by norm_num [samplePlayer])
  exact ⟨rfl, by norm_num [samplePlayer], h.1, h.2⟩

/-- The unused filter is empty exactly when every active id has been
used. -/
theorem filter_unused_eq_nil_iff (active : List String) (used : Finset String) :
    active.filter (fun id => id ∉ used) = [] ↔ ∀ a ∈ active, a ∈ used := by
  rw [List.filter_eq_nil_iff]
  simp

/-- Wraparound branch of the draw: every active id used, so the used set is
cleared and the pick falls back to `getRandomTrack`. -/
theorem getRandomUnusedTrackId_wrap (active : List String)
    (used : Finset String) (r : ℚ) (hw : ∀ a ∈ active, a ∈ used) :
    getRandomUnusedTrackId active used r = (getRandomTrackId active r, ∅) := by
  have hc : (active.filter (fun id => id ∉ used)).length = 0 := by
    rw [List.length_eq_zero, filter_unused_eq_nil_iff]
    exact hw
  simp only [getRandomUnusedTrackId]
  rw [if_pos hc]

/-- Normal branch of the draw: some active id is unused, so the pick
indexes the unused filter and the used set is untouched. -/
theorem getRandomUnusedTrackId_normal (active : List String)
    (used : Finset String) (r : ℚ) (hnw : ¬ ∀ a ∈ active, a ∈ used) :
    getRandomUnusedTrackId active used r =
      ((active.filter (fun id => id ∉ used))[randomIndex r
        (active.filter (fun id => id ∉ used)).length]?, used) := by
  have hc : ¬ (active.filter (fun id => id ∉ used)).length = 0 := by
    rw [List.length_eq_zero, filter_unused_eq_nil_iff]
    exact hnw
  simp only [getRandomUnusedTrackId]
  rw [if_neg hc]

/-- Unfolding of `drawMark` when the draw returns no id. -/
theorem drawMark_of_none {pool : SelectionPool} {r : ℚ}
    (h : (pool.draw r).1 = none) :
    pool.drawMark r = (none, (pool.draw r).2) := by
  unfold SelectionPool.drawMark
  rw [h]

/-- Unfolding of `drawMark` when the draw returns an id. -/
theorem drawMark_of_some {pool : SelectionPool} {r : ℚ} {id : String}
    (h : (pool.draw r).1 = some id) :
    pool.drawMark r = (some id, ((pool.draw r).2).markConsumed id) := by
  unfold SelectionPool.drawMark
  rw [h]

/-- Case analysis of a single `drawMark` step, as used by the
non-repetition induction: either the wraparound condition held at entry, or
the step drew nothing and left the pool untouched, or it drew a fresh id
and recorded it. -/
theorem drawMark_cases (pool : SelectionPool) (r : ℚ) :
    (∀ a ∈ pool.activeIds, a ∈ pool.usedIds) ∨
    pool.drawMark r = (none, pool) ∨
    ∃ id, pool.drawMark r =
        (some id, ⟨pool.activeIds, insert id pool.usedIds⟩) ∧
      id ∈ pool.activeIds ∧ id ∉ pool.usedIds := by
  by_cases hw : ∀ a ∈ pool.activeIds, a ∈ pool.usedIds
  · exact Or.inl hw
  · right
    have hn := getRandomUnusedTrackId_normal pool.activeIds pool.usedIds r hw
    have hdraw1 : (pool.draw r).1 =
        (pool.activeIds.filter (fun id => id ∉ pool.usedIds))[randomIndex r
          (pool.activeIds.filter (fun id => id ∉ pool.usedIds)).length]? := by
      unfold SelectionPool.draw
      rw [hn]
    have hdraw2 : (pool.draw r).2 = pool := by
      unfold SelectionPool.draw
      rw [hn]
    cases hx : (pool.activeIds.filter
        (fun id => id ∉ pool.usedIds))[randomIndex r
          (pool.activeIds.filter (fun id => id ∉ pool.usedIds)).length]? with
    | none =>
      left
      rw [drawMark_of_none (by rw [hdraw1, hx]), hdraw2]
    | some id =>
      right
      have hmem := List.getElem?_mem hx
      refine ⟨id, ?_, (List.mem_filter.1 hmem).1, ?_⟩
      · rw [drawMark_of_some (by rw [hdraw1, hx]), hdraw2]
        rfl
      · have := (List.mem_filter.1 hmem).2
        simpa using this

/-- If a draw at position `j` hands out an id that was already in the used
set at the start of the trace, then by position `j` either every active id
has appeared among the outputs or it was in the initial used set: a
re-issue forces a wraparound, and a wraparound certifies exhaustion. -/
theorem runDraws_dup_of_used :
    ∀ (rs : List ℚ) (pool : SelectionPool) (j : ℕ) (id : String),
      (pool.runDraws rs).1[j]? = some (some id) →
      id ∈ pool.usedIds →
      ∀ a ∈ pool.activeIds,
        some a ∈ (pool.runDraws rs).1.take j ∨ a ∈ pool.usedIds := by
  intro rs
  induction rs with
  | nil =>
    intro pool j id hj
    simp [SelectionPool.runDraws] at hj
  | cons r rs ih =>
    intro pool j id hj hid a ha
    rcases drawMark_cases pool r with hw | hnone | ⟨idb, heq, hmemb, hnotb⟩
    · exact Or.inr (hw a ha)
    · cases j with
      | zero =>
        simp only [SelectionPool.runDraws, hnone,
          List.getElem?_cons_zero] at hj
        simp at hj
      | succ j' =>
        simp only [SelectionPool.runDraws, hnone,
          List.getElem?_cons_succ] at hj
        have hres := ih pool j' id hj hid a ha
        simp only [SelectionPool.runDraws, hnone, List.take_succ_cons,
          List.mem_cons]
        rcases hres with h1 | h2
        · exact Or.inl (Or.inr h1)
        · exact Or.inr h2
    · cases j with
      | zero =>
        simp only [SelectionPool.runDraws, heq,
          List.getElem?_cons_zero] at hj
        have hbid : idb = id := by simpa using hj
        exact absurd hid (hbid ▸ hnotb)
      | succ j' =>
        simp only [SelectionPool.runDraws, heq,
          List.getElem?_cons_succ] at hj
        have hres := ih ⟨pool.activeIds, insert idb pool.usedIds⟩ j' id hj
          (Finset.mem_insert_of_mem hid) a ha
        simp only [SelectionPool.runDraws, heq, List.take_succ_cons,
          List.mem_cons]
        rcases hres with h1 | h2
        · exact Or.inl (Or.inr h1)
        · rcases Finset.mem_insert.1 h2 with h3 | h3
          · exact Or.inl (Or.inl (by rw [h3]))
          · exact Or.inr h3

/-- Core of the non-repetition property: if the same id is handed out at
two positions of a draw trace, then before the second position every
active id has appeared among the outputs (or was used at the start). -/
theorem runDraws_no_repeat_core :
    ∀ (rs : List ℚ) (pool : SelectionPool) (i j : ℕ) (id : String),
      i < j →
      (pool.runDraws rs).1[i]? = some (some id) →
      (pool.runDraws rs).1[j]? = some (some id) →
      ∀ a ∈ pool.activeIds,
        some a ∈ (pool.runDraws rs).1.take j ∨ a ∈ pool.usedIds := by
  intro rs
  induction rs with
  | nil =>
    intro pool i j id hij hi hj
    simp [SelectionPool.runDraws] at hi
  | cons r rs ih =>
    intro pool i j id hij hi hj a ha
    rcases drawMark_cases pool r with hw | hnone | ⟨idb, heq, hmemb, hnotb⟩
    · exact Or.inr (hw a ha)
    · cases i with
      | zero =>
        simp only [SelectionPool.runDraws, hnone,
          List.getElem?_cons_zero] at hi
        simp at hi
      | succ i' =>
        cases j with
        | zero => exact absurd hij (by omega)
        | succ j' =>
          simp only [SelectionPool.runDraws, hnone,
            List.getElem?_cons_succ] at hi hj
          have hres := ih pool i' j' id (by omega) hi hj a ha
          simp only [SelectionPool.runDraws, hnone, List.take_succ_cons,
            List.mem_cons]
          rcases hres with h1 | h2
          · exact Or.inl (Or.inr h1)
          · exact Or.inr h2
    · cases i with
      | zero =>
        cases j with
        | zero => exact absurd hij (by omega)
        | succ j' =>
          simp only [SelectionPool.runDraws, heq, List.getElem?_cons_zero,
            List.getElem?_cons_succ] at hi hj
          have hbid : idb = id := by simpa using hi
          have hins : id ∈ insert idb pool.usedIds := by
            rw [← hbid]
            exact Finset.mem_insert_self _ _
          have hres := runDraws_dup_of_used rs
            ⟨pool.activeIds, insert idb pool.usedIds⟩ j' id hj hins a ha
          simp only [SelectionPool.runDraws, heq, List.take_succ_cons,
            List.mem_cons]
          rcases hres with h1 | h2
          · exact Or.inl (Or.inr h1)
          · rcases Finset.mem_insert.1 h2 with h3 | h3
            · exact Or.inl (Or.inl (by rw [h3]))
            · exact Or.inr h3
      | succ i' =>
        cases j with
        | zero => exact absurd hij (by omega)
        | succ j' =>
          simp only [SelectionPool.runDraws, heq,
            List.getElem?_cons_succ] at hi hj
          have hres := ih ⟨pool.activeIds, insert idb pool.usedIds⟩ i' j' id
            (by omega) hi hj a ha
          simp only [SelectionPool.runDraws, heq, List.take_succ_cons,
            List.mem_cons]
          rcases hres with h1 | h2
          · exact Or.inl (Or.inr h1)
          · rcases Finset.mem_insert.1 h2 with h3 | h3
            · exact Or.inl (Or.inl (by rw [h3]))
            · exact Or.inr h3

/-- **C1.** The SelectionPool draw: an empty active set yields no id; when
some active id is unused the draw returns an unused active id; when the
active set is non-empty but fully used, the draw clears `usedIds` and
returns some active id (wraparound).  Consequently a trace of draws with
`markConsumed` applied to each result, started with an empty used set,
never repeats an id before every active id has been returned at least
once. -/
theorem draw_spec :
    (∀ (pool : SelectionPool) (r : ℚ),
      pool.activeIds = [] → (pool.draw r).1 = none) ∧
    (∀ (pool : SelectionPool) (r : ℚ), 0 ≤ r → r < 1 →
      (∃ a ∈ pool.activeIds, a ∉ pool.usedIds) →
      ∃ id, (pool.draw r).1 = some id ∧ id ∈ pool.activeIds ∧
        id ∉ pool.usedIds) ∧
    (∀ (pool : SelectionPool) (r : ℚ), 0 ≤ r → r < 1 →
      pool.activeIds ≠ [] → (∀ a ∈ pool.activeIds, a ∈ pool.usedIds) →
      (pool.draw r).2.usedIds = ∅ ∧
      ∃ id, (pool.draw r).1 = some id ∧ id ∈ pool.activeIds) ∧
    (∀ (activeIds : List String) (rs : List ℚ) (i j : ℕ) (id : String),
      i < j →
      ((SelectionPool.mk activeIds ∅).runDraws rs).1[i]? = some (some id) →
      ((SelectionPool.mk activeIds ∅).runDraws rs).1[j]? = some (some id) →
      ∀ a ∈ activeIds,
        some a ∈ ((SelectionPool.mk activeIds ∅).runDraws rs).1.take j) := by
  refine ⟨?_, ?_, ?_, ?_⟩
  · intro pool r h
    have hw : ∀ a ∈ pool.activeIds, a ∈ pool.usedIds := by simp [h]
    have h1 : (pool.draw r).1 = getRandomTrackId pool.activeIds r := by
      unfold SelectionPool.draw
      rw [getRandomUnusedTrackId_wrap pool.activeIds pool.usedIds r hw]
    rw [h1, h]
    simp [getRandomTrackId]
  · intro pool r h0 h1 hex
    obtain ⟨b, hb, hbu⟩ := hex
    have hnw : ¬ ∀ c ∈ pool.activeIds, c ∈ pool.usedIds :=
      fun hcon => hbu (hcon b hb)
    have hn := getRandomUnusedTrackId_normal pool.activeIds pool.usedIds r hnw
    have hlne : pool.activeIds.filter (fun c => c ∉ pool.usedIds) ≠ [] := by
      rw [Ne, filter_unused_eq_nil_iff]
      exact hnw
    have hlt := randomIndex_lt r
      (pool.activeIds.filter (fun c => c ∉ pool.usedIds)).length h0 h1
      (List.length_pos.2 hlne)
    obtain ⟨picked, hpicked⟩ :
        ∃ c, (pool.activeIds.filter
          (fun c => c ∉ pool.usedIds))[randomIndex r
            (pool.activeIds.filter (fun c => c ∉ pool.usedIds)).length]? =
          some c := ⟨_, List.getElem?_eq_getElem hlt⟩
    have hmem := List.getElem?_mem hpicked
    refine ⟨picked, ?_, (List.mem_filter.1 hmem).1, ?_⟩
    · unfold SelectionPool.draw
      rw [hn]
      exact hpicked
    · have := (List.mem_filter.1 hmem).2
      simpa using this
  · intro pool r h0 h1 hne hw
    have hwr := getRandomUnusedTrackId_wrap pool.activeIds pool.usedIds r hw
    obtain ⟨picked, hpick, hmem⟩ :=
      getRandomTrackId_isSome pool.activeIds r h0 h1 hne
    constructor
    · unfold SelectionPool.draw
      rw [hwr]
    · refine ⟨picked, ?_, hmem⟩
      unfold SelectionPool.draw
      rw [hwr]
      exact hpick
  · intro activeIds rs i j id hij hi hj a ha
    rcases runDraws_no_repeat_core rs ⟨activeIds, ∅⟩ i j id hij hi hj a ha
      with h1 | h2
    · exact h1
    · exact absurd h2 (by simp)

/-- Witness for **C1**: with active set `["A","B"]` and used set `{"A"}`,
the draw at `r = 0` returns an unused active id. -/
theorem draw_spec_witness :
    (∃ a ∈ (["A", "B"] : List String), a ∉ ({"A"} : Finset String)) ∧
    (∃ id, ((SelectionPool.mk ["A", "B"] {"A"}).draw 0).1 = some id ∧
      id ∈ (["A", "B"] : List String) ∧ id ∉ ({"A"} : Finset String)) :=
  ⟨by decide, draw_spec.2.1 ⟨["A", "B"], {"A"}⟩ 0 le_rfl (by norm_num)
    (by decide)⟩

end DejaCue
